import Mathlib

/-!
Verification of the host-side syscall bridge: the crypto syscall set
(`fvm/src/syscalls/crypto.rs`) and the cgo blockstore bridge
(`cgo/blockstore/rust/src/lib.rs`), shallowly embedded in Lean.

Guest memory is a `List UInt8`; machine integers are `Int`/`Nat` with the
relevant casts made explicit; fallible operations return `Except`/sum-like
result types; a Rust `panic!` is a distinct `panic` outcome.
-/

namespace RefFvm

/-- A content identifier.  The bridge treats CIDs opaquely: they are compared
structurally and serialized to their canonical byte encoding (`to_bytes`). -/
structure Cid where
  bytes : List UInt8
deriving DecidableEq, Repr

/-! ## Blockstore bridge (cgo/blockstore/rust/src/lib.rs)

The foreign runtime is reachable only through an integer status-code
protocol (`sys::cgobs_has` etc.).  Each bridge operation is modelled as a
function of the status code the foreign call returned (plus, for `get`, the
out-parameters `buf`/`size` it filled in). -/

def ERR_NO_STORE : Int := -1

def ERR_NOT_FOUND : Int := -2

/-- The recoverable error type of the bridge (`enum Error`). -/
inductive BsError where
  | NotFound
  | Other
deriving DecidableEq, Repr

/-- Outcome of one bridge call: `Ok`, a recoverable `Err`, or a Rust
`panic!` (fatal abort; the diagnostic message is not modelled). -/
inductive BsResult (α : Type) where
  | ok (a : α)
  | err (e : BsError)
  | panic
deriving DecidableEq, Repr

/-- The bridge structure itself only wraps the store handle. -/
structure Blockstore where
  handle : Int
deriving DecidableEq, Repr

/-- `size as usize` for an `i32` value on a 64-bit host: sign-extension,
i.e. reduction modulo 2^64 of the signed value. -/
def usizeOfI32 (s : Int) : Nat := (s % (2 : Int) ^ 64).toNat

/-- The block handed back by a successful `get` (`struct BlockReader`):
the queried CID, a cursor (position + owned byte buffer), and the length
reported by the foreign runtime. -/
structure BlockReader where
  cid : Cid
  pos : Nat
  data : List UInt8
  length : Nat
deriving DecidableEq, Repr

/-- `io::Read for BlockReader`: reading `n` bytes copies
`min(n, remaining)` bytes from the cursor and advances it. -/
def BlockReader.read (r : BlockReader) (n : Nat) : List UInt8 × BlockReader :=
  let chunk := (r.data.drop r.pos).take n
  (chunk, { r with pos := r.pos + chunk.length })

/-- Reading the block to the end: the bytes from the cursor position to the
end of the buffer (what repeated `read` calls concatenate to). -/
def BlockReader.readToEnd (r : BlockReader) : List UInt8 :=
  r.data.drop r.pos

/-- `blockstore::BlockReader::size`. -/
def BlockReader.size (r : BlockReader) : Nat := r.length

/-- `Blockstore::has`, as a function of the status code returned by
`sys::cgobs_has`; the match arms are translated in source order. -/
def Blockstore.has (_self : Blockstore) (_k : Cid) (status : Int) : BsResult Bool :=
  if status = 0 ∨ status = ERR_NOT_FOUND then .ok false
  else if status = 1 then .ok true
  else if 2 ≤ status then .panic
  else if status = ERR_NO_STORE then .panic
  else .err .Other

/-- `Blockstore::get`, as a function of the status code and the
out-parameters filled in by `sys::cgobs_get`: `buf` is the memory at the
returned pointer and `size` the returned `i32` length.  On status 0 the
code takes ownership of `size as usize` bytes from `buf`
(`Vec::from_raw_parts(buf, size as usize, size as usize)`). -/
def Blockstore.get (_self : Blockstore) (k : Cid) (status : Int)
    (buf : Nat → UInt8) (size : Int) : BsResult (Option BlockReader) :=
  if status = 0 then
    .ok (some { cid := k, pos := 0,
                data := (List.range (usizeOfI32 size)).map buf,
                length := usizeOfI32 size })
  else if 1 ≤ status then .panic
  else if status = ERR_NO_STORE then .panic
  else if status = ERR_NOT_FOUND then .err .NotFound
  else .err .Other

/-- `Blockstore::put`, as a function of the status code returned by
`sys::cgobs_put`. -/
def Blockstore.put (_self : Blockstore) (_k : Cid) (_block : List UInt8)
    (status : Int) : BsResult Unit :=
  if status = 0 then .ok ()
  else if 1 ≤ status then .panic
  else if status = ERR_NO_STORE then .panic
  else if status = ERR_NOT_FOUND then .panic
  else .err .Other

/-- `Blockstore::delete`, as a function of the status code returned by
`sys::cgobs_delete`. -/
def Blockstore.delete (_self : Blockstore) (_k : Cid) (status : Int) :
    BsResult Unit :=
  if status = 0 then .ok ()
  else if 1 ≤ status then .panic
  else if status = ERR_NO_STORE then .panic
  else if status = ERR_NOT_FOUND then .ok ()
  else .err .Other

/-! Status maps transcribed from the specification sentences, to be compared
with the bridge functions above. -/

/-- The `has` status mapping as the spec states it: 0 or not-found (-2) is
`false`; 1 is `true`; no-store (-1) is a fatal abort; every status ≥ 2 is a
fatal abort; every other negative status is the recoverable `Other`. -/
def hasSpecMap (status : Int) : BsResult Bool :=
  if status = 0 ∨ status = -2 then .ok false
  else if status = 1 then .ok true
  else if status = -1 then .panic
  else if 2 ≤ status then .panic
  else .err .Other

/-- The `get` status mapping as the spec states it: 0 is success carrying
the transferred buffer; not-found (-2) is `NotFound`; no-store (-1) is a
fatal abort; every status ≥ 1 is a fatal abort; every other negative status
is the recoverable `Other`. -/
def getSpecMap (k : Cid) (buf : Nat → UInt8) (size : Int) (status : Int) :
    BsResult (Option BlockReader) :=
  if status = 0 then
    .ok (some { cid := k, pos := 0,
                data := (List.range (usizeOfI32 size)).map buf,
                length := usizeOfI32 size })
  else if status = -2 then .err .NotFound
  else if status = -1 then .panic
  else if 1 ≤ status then .panic
  else .err .Other

/-- The `put` status mapping as the spec states it: 0 is success; not-found
(-2) is a fatal abort; no-store (-1) is a fatal abort; every status ≥ 1 is
a fatal abort; every other negative status is the recoverable `Other`. -/
def putSpecMap (status : Int) : BsResult Unit :=
  if status = 0 then .ok ()
  else if status = -2 then .panic
  else if status = -1 then .panic
  else if 1 ≤ status then .panic
  else .err .Other

/-- The `delete` status mapping as the spec states it: 0 and not-found (-2)
are success; no-store (-1) is a fatal abort; every status ≥ 1 is a fatal
abort; every other negative status is the recoverable `Other`. -/
def deleteSpecMap (status : Int) : BsResult Unit :=
  if status = 0 ∨ status = -2 then .ok ()
  else if status = -1 then .panic
  else if 1 ≤ status then .panic
  else .err .Other

/-! ## Memory accessors (fvm/src/syscalls/context.rs, not under src/)

The accessors the crypto syscalls use live outside the given source files,
so they are modelled from the spec (sections 4.1/4.2). -/

/-- A message-level trap, carrying the underlying cause class. -/
inductive Trap where
  | outOfBounds
  | decodeError
  | kernelError
deriving DecidableEq, Repr

/-- Modelled from the spec: `try_slice(offset, length)` (the accessor is
declared in `context.rs`, which is not among the given sources) returns the
raw byte range `[offset, offset+length)` of guest memory with no structural
interpretation, failing with an out-of-bounds trap when `offset+length`
exceeds the region size. -/
def try_slice (mem : List UInt8) (offset length : Nat) :
    Except Trap (List UInt8) :=
  if offset + length ≤ mem.length then .ok ((mem.drop offset).take length)
  else .error .outOfBounds

/-- Modelled from the spec: `read_cbor`/`read_structured<T>(offset, length)`
(declared in `context.rs`, not among the given sources) takes the bounded
byte range and parses it as the structured encoding of `T`; the decoder
itself is an external collaborator, passed in as `dec`. -/
def read_cbor {T : Type} (dec : List UInt8 → Option T) (mem : List UInt8)
    (offset length : Nat) : Except Trap T :=
  match try_slice mem offset length with
  | .error t => .error t
  | .ok bs =>
    match dec bs with
    | some v => .ok v
    | none => .error .decodeError

/-- Modelled from the spec: `read_address(offset, length)` (declared in
`context.rs`, not among the given sources) parses the bounded byte range as
a chain address, with the address codec passed in as `dec`. -/
def read_address {Addr : Type} (dec : List UInt8 → Option Addr)
    (mem : List UInt8) (offset length : Nat) : Except Trap Addr :=
  match try_slice mem offset length with
  | .error t => .error t
  | .ok bs =>
    match dec bs with
    | some v => .ok v
    | none => .error .decodeError

/-- Writing `bs` into guest memory at `offset` (the effect of
`try_slice_mut(offset, bs.length)` followed by `copy_from_slice`); only
meaningful when `offset + bs.length ≤ mem.length`. -/
def writeBytes (mem : List UInt8) (offset : Nat) (bs : List UInt8) :
    List UInt8 :=
  mem.take offset ++ (bs ++ mem.drop (offset + bs.length))

/-! ## Crypto syscalls (fvm/src/syscalls/crypto.rs)

Each syscall is parametrized by the kernel capability operation it
delegates to (the `Kernel` trait is an external collaborator) and by the
codecs of its structured arguments.  A kernel operation fails with `Unit`
(the cause is irrelevant at this boundary: any capability error becomes a
trap). -/

/-- `verify_signature`: decodes the signature (structured) and the address,
takes the plaintext as a raw slice, and delegates to the kernel.  NOTE: the
source passes `(plaintext_len, plaintext_off)` to `try_slice`, in that
order; the translation preserves this argument order exactly. -/
def verify_signature {Sig Addr : Type}
    (sigDec : List UInt8 → Option Sig) (addrDec : List UInt8 → Option Addr)
    (kVerify : Sig → Addr → List UInt8 → Except Unit Bool)
    (mem : List UInt8)
    (sig_off sig_len addr_off addr_len plaintext_off plaintext_len : Nat) :
    Except Trap Bool :=
  match read_cbor sigDec mem sig_off sig_len with
  | .error t => .error t
  | .ok sig =>
    match read_address addrDec mem addr_off addr_len with
    | .error t => .error t
    | .ok addr =>
      match try_slice mem plaintext_len plaintext_off with
      | .error t => .error t
      | .ok plaintext =>
        match kVerify sig addr plaintext with
        | .ok b => .ok b
        | .error _ => .error .kernelError

/-- Outcome of a syscall that can also hit a Rust `assert!`/`todo!` panic,
which unwinds past the `Result` channel. -/
inductive HostResult (α : Type) where
  | ok (a : α)
  | trap (t : Trap)
  | panic
deriving DecidableEq, Repr

/-- `hash_blake2b`: hashes a raw input slice and writes the 32-byte digest
into guest memory at `obuf_off`; returns the updated guest memory.  NOTE:
the source passes `(data_len, data_off)` to `try_slice`, in that order; the
translation preserves this argument order exactly.  The source asserts
`hash.len() == 32` (a panic when violated) and then copies `hash[..32]`
through `try_slice_mut(obuf_off, 32)`. -/
def hash_blake2b (kHash : List UInt8 → Except Unit (List UInt8))
    (mem : List UInt8) (data_off data_len obuf_off : Nat) :
    HostResult (List UInt8) :=
  match try_slice mem data_len data_off with
  | .error t => .trap t
  | .ok data =>
    match kHash data with
    | .error _ => .trap .kernelError
    | .ok hash =>
      if hash.length = 32 then
        if obuf_off + 32 ≤ mem.length then
          .ok (writeBytes mem obuf_off (hash.take 32))
        else .trap .outOfBounds
      else .panic

/-- `compute_unsealed_sector_cid`: decodes the piece list (structured),
maps the integer proof-type tag through the total conversion
`RegisteredSealProof::from` (a total function `fromTag`, modelled from the
spec since `fvm_shared` is not among the given sources), and delegates to
the kernel. -/
def compute_unsealed_sector_cid {ProofType PieceInfo : Type}
    (fromTag : Int → ProofType)
    (piecesDec : List UInt8 → Option (List PieceInfo))
    (kCompute : ProofType → List PieceInfo → Except Unit Cid)
    (mem : List UInt8) (proof_type : Int) (pieces_off pieces_len : Nat) :
    Except Trap Cid :=
  match read_cbor piecesDec mem pieces_off pieces_len with
  | .error t => .error t
  | .ok pieces =>
    match kCompute (fromTag proof_type) pieces with
    | .ok c => .ok c
    | .error _ => .error .kernelError

/-- `verify_consensus_fault`: takes the three headers as raw slices,
delegates to the kernel, and on a proven fault calls
`kernel.return_push(fault).map(|_| true).map_err(Trap::from)`: the push is
a fallible capability operation (`returnPush`, abstract like the fault
predicate), and a failed push becomes a trap.  The return-value stack is
threaded explicitly; `returnPush` takes the fault and the current stack
and, when it succeeds, yields the updated stack. -/
def verify_consensus_fault {Fault : Type}
    (kFault : List UInt8 → List UInt8 → List UInt8 →
      Except Unit (Option Fault))
    (returnPush : Fault → List Fault → Except Unit (List Fault))
    (mem : List UInt8)
    (h1_off h1_len h2_off h2_len extra_off extra_len : Nat)
    (stack : List Fault) : Except Trap (Bool × List Fault) :=
  match try_slice mem h1_off h1_len with
  | .error t => .error t
  | .ok h1 =>
    match try_slice mem h2_off h2_len with
    | .error t => .error t
    | .ok h2 =>
      match try_slice mem extra_off extra_len with
      | .error t => .error t
      | .ok extra =>
        match kFault h1 h2 extra with
        | .error _ => .error .kernelError
        | .ok (some fault) =>
          match returnPush fault stack with
          | .ok stack2 => .ok (true, stack2)
          | .error _ => .error .kernelError
        | .ok none => .ok (false, stack)

/-- `batch_verify_seals`: the body is `todo!()`, an unconditional panic. -/
def batch_verify_seals {Addr SealVerifyInfo : Type}
    (_vis : List (Addr × List SealVerifyInfo)) :
    HostResult (List (Addr × List Bool)) :=
  .panic

/-! ## Helper lemmas about `writeBytes` -/

theorem writeBytes_length (mem bs : List UInt8) (o : Nat)
    (h : o + bs.length ≤ mem.length) :
    (writeBytes mem o bs).length = mem.length := by
  simp [writeBytes]
  omega

theorem writeBytes_take (mem bs : List UInt8) (o : Nat)
    (h : o + bs.length ≤ mem.length) :
    (writeBytes mem o bs).take o = mem.take o := by
  unfold writeBytes
  rw [List.take_left']
  simp
  omega

theorem writeBytes_middle (mem bs : List UInt8) (o : Nat)
    (h : o + bs.length ≤ mem.length) :
    ((writeBytes mem o bs).drop o).take bs.length = bs := by
  unfold writeBytes
  rw [List.drop_left', List.take_left' rfl]
  simp
  omega

theorem writeBytes_drop (mem bs : List UInt8) (o : Nat)
    (h : o + bs.length ≤ mem.length) :
    (writeBytes mem o bs).drop (o + bs.length) = mem.drop (o + bs.length) := by
  unfold writeBytes
  rw [show o + bs.length = (mem.take o).length + bs.length by simp; omega]
  rw [List.drop_append, List.drop_left]

/-! ## Claim theorems -/

/-- C3: `Blockstore::has` maps the foreign status code exactly as the spec
states: 0 or not-found (-2) gives `Ok false`, 1 gives `Ok true`, no-store
(-1) and every status ≥ 2 are fatal aborts, and every other negative
status is the recoverable `Other` error. -/
theorem C3_has_status_mapping (self : Blockstore) (k : Cid) (status : Int) :
    self.has k status = hasSpecMap status := by
  unfold Blockstore.has hasSpecMap ERR_NOT_FOUND ERR_NO_STORE
  split_ifs <;> first | rfl | (exfalso; omega)

/-- C4: `Blockstore::get` maps the foreign status code exactly as the spec
states: 0 gives success carrying the transferred buffer, not-found (-2)
gives the recoverable `NotFound` error, no-store (-1) and every status ≥ 1
are fatal aborts, and every other negative status is the recoverable
`Other` error. -/
theorem C4_get_status_mapping (self : Blockstore) (k : Cid) (status : Int)
    (buf : Nat → UInt8) (size : Int) :
    self.get k status buf size = getSpecMap k buf size status := by
  unfold Blockstore.get getSpecMap ERR_NOT_FOUND ERR_NO_STORE
  split_ifs <;> first | rfl | (exfalso; omega)

/-- C5: `Blockstore::put` maps the foreign status code exactly as the spec
states: 0 gives success; not-found (-2) is a fatal abort (not-found on a
put is contractually impossible), no-store (-1) and every status ≥ 1 are
fatal aborts, and every other negative status is the recoverable `Other`
error. -/
theorem C5_put_status_mapping (self : Blockstore) (k : Cid)
    (block : List UInt8) (status : Int) :
    self.put k block status = putSpecMap status := by
  unfold Blockstore.put putSpecMap ERR_NOT_FOUND ERR_NO_STORE
  split_ifs <;> first | rfl | (exfalso; omega)

/-- C6: `Blockstore::delete` succeeds on status 0 and on not-found (-2)
(deleting a nonexistent key is not an error), fatally aborts on no-store
(-1) and on every status ≥ 1, and yields the recoverable `Other` error on
every other negative status. -/
theorem C6_delete_status_mapping (self : Blockstore) (k : Cid)
    (status : Int) :
    self.delete k status = deleteSpecMap status := by
  unfold Blockstore.delete deleteSpecMap ERR_NOT_FOUND ERR_NO_STORE
  split_ifs <;> first | rfl | (exfalso; omega)

/-- C9: `batch_verify_seals` is an unimplemented stub (`todo!()`): every
invocation panics, so no caller can reach an `ok` or `trap` outcome
through it. -/
theorem C9_batch_verify_seals_panics {Addr SealVerifyInfo : Type}
    (vis : List (Addr × List SealVerifyInfo)) :
    batch_verify_seals vis = HostResult.panic := rfl

/-- C2: `verify_consensus_fault`, once its three header slices are read:
if the kernel reports no fault the syscall returns `false` and pushes
nothing onto the return-value stack (the stack is unchanged and the push
capability is never consulted); if the kernel reports a fault and the
capability's push succeeds — pushing exactly that one fault payload onto
the channel — the syscall returns `true` with that stack; if the push
fails, or the fault predicate itself fails with an internal error, the
syscall aborts with a trap. -/
theorem C2_verify_consensus_fault_outcomes {Fault : Type}
    (kFault : List UInt8 → List UInt8 → List UInt8 →
      Except Unit (Option Fault))
    (returnPush : Fault → List Fault → Except Unit (List Fault))
    (mem : List UInt8)
    (h1_off h1_len h2_off h2_len extra_off extra_len : Nat)
    (stack : List Fault) (b1 b2 bx : List UInt8)
    (hs1 : try_slice mem h1_off h1_len = .ok b1)
    (hs2 : try_slice mem h2_off h2_len = .ok b2)
    (hsx : try_slice mem extra_off extra_len = .ok bx) :
    (kFault b1 b2 bx = .ok none →
      verify_consensus_fault kFault returnPush mem h1_off h1_len h2_off
        h2_len extra_off extra_len stack = .ok (false, stack)) ∧
    (∀ f, kFault b1 b2 bx = .ok (some f) →
      returnPush f stack = .ok (stack ++ [f]) →
      verify_consensus_fault kFault returnPush mem h1_off h1_len h2_off
        h2_len extra_off extra_len stack = .ok (true, stack ++ [f])) ∧
    (∀ f e, kFault b1 b2 bx = .ok (some f) →
      returnPush f stack = .error e →
      verify_consensus_fault kFault returnPush mem h1_off h1_len h2_off
        h2_len extra_off extra_len stack = .error .kernelError) ∧
    (∀ e, kFault b1 b2 bx = .error e →
      verify_consensus_fault kFault returnPush mem h1_off h1_len h2_off
        h2_len extra_off extra_len stack = .error .kernelError) := by
  unfold verify_consensus_fault
  rw [hs1, hs2, hsx]
  dsimp only
  refine ⟨fun h => ?_, fun f h hp => ?_, fun f e h hp => ?_, fun e h => ?_⟩
  · rw [h]
  · rw [h]
    dsimp only
    rw [hp]
  · rw [h]
    dsimp only
    rw [hp]
  · rw [h]

/-- Witness for C2 at a concrete input exercising the fault branch with a
push that appends the payload. -/
theorem C2_witness :
    verify_consensus_fault (fun _ _ _ => Except.ok (some ()))
      (fun f s => Except.ok (s ++ [f]))
      ([] : List UInt8) 0 0 0 0 0 0 ([] : List Unit)
      = .ok (true, [()]) :=
  (C2_verify_consensus_fault_outcomes (fun _ _ _ => Except.ok (some ()))
      (fun f s => Except.ok (s ++ [f]))
      [] 0 0 0 0 0 0 [] [] [] [] rfl rfl rfl).2.1 () rfl rfl

/-- C8: `compute_unsealed_sector_cid` performs no boundary-level validation
of the proof-type tag: for every integer tag, the tag is mapped through the
total conversion and the result handed to the capability, so whenever the
piece-list decode and the capability succeed the syscall succeeds; and
every abort comes from a failed decode or a capability error, never from
the tag itself. -/
theorem C8_proof_type_not_validated {ProofType PieceInfo : Type}
    (fromTag : Int → ProofType)
    (piecesDec : List UInt8 → Option (List PieceInfo))
    (kCompute : ProofType → List PieceInfo → Except Unit Cid)
    (mem : List UInt8) (proof_type : Int) (pieces_off pieces_len : Nat) :
    (∀ pieces c, read_cbor piecesDec mem pieces_off pieces_len = .ok pieces →
      kCompute (fromTag proof_type) pieces = .ok c →
      compute_unsealed_sector_cid fromTag piecesDec kCompute mem proof_type
        pieces_off pieces_len = .ok c) ∧
    (∀ t, compute_unsealed_sector_cid fromTag piecesDec kCompute mem
        proof_type pieces_off pieces_len = .error t →
      (read_cbor piecesDec mem pieces_off pieces_len = .error t ∨
        ∃ pieces, read_cbor piecesDec mem pieces_off pieces_len = .ok pieces ∧
          kCompute (fromTag proof_type) pieces = .error ())) := by
  constructor
  · intro pieces c hdec hk
    unfold compute_unsealed_sector_cid
    rw [hdec]
    dsimp only
    rw [hk]
  · intro t habort
    unfold compute_unsealed_sector_cid at habort
    cases hdec : read_cbor piecesDec mem pieces_off pieces_len with
    | error t2 =>
      rw [hdec] at habort
      dsimp only at habort
      injection habort with h
      subst h
      exact Or.inl rfl
    | ok pieces =>
      rw [hdec] at habort
      dsimp only at habort
      refine Or.inr ⟨pieces, rfl, ?_⟩
      cases hk : kCompute (fromTag proof_type) pieces with
      | error e => rfl
      | ok c => rw [hk] at habort; cases habort

/-- Witness for C8 at a concrete out-of-range tag (-999): the syscall
still succeeds once decode and capability succeed. -/
theorem C8_witness :
    compute_unsealed_sector_cid (fun t => t)
      (fun _ => some ([] : List Unit)) (fun _ _ => Except.ok ⟨[]⟩)
      ([] : List UInt8) (-999) 0 0 = .ok ⟨[]⟩ :=
  (C8_proof_type_not_validated (fun t => t) (fun _ => some ([] : List Unit))
      (fun _ _ => Except.ok ⟨[]⟩) [] (-999) 0 0).1 [] ⟨[]⟩ rfl rfl

/-- C10: when `Blockstore::get` succeeds with a block, the block reports
exactly the queried CID, its size is the byte length reported by the
foreign runtime, and reading it to the end yields exactly that many bytes
taken from the transferred buffer.  The `i32` length reported by the
foreign call is assumed in range (nonnegative and below 2^31). -/
theorem C10_get_block_shape (self : Blockstore) (k : Cid) (status : Int)
    (buf : Nat → UInt8) (size : Int) (r : BlockReader)
    (hsz : 0 ≤ size) (hsz2 : size < 2 ^ 31)
    (hget : self.get k status buf size = .ok (some r)) :
    r.cid = k ∧ r.size = size.toNat ∧
    r.readToEnd = (List.range size.toNat).map buf ∧
    r.readToEnd.length = size.toNat := by
  have husize : usizeOfI32 size = size.toNat := by
    unfold usizeOfI32
    omega
  unfold Blockstore.get at hget
  split_ifs at hget <;> cases hget
  rw [husize]
  refine ⟨rfl, rfl, ?_, ?_⟩ <;>
    simp [BlockReader.readToEnd]

/-- Witness for C10 at a concrete successful `get`. -/
theorem C10_witness :
    (BlockReader.mk ⟨[1]⟩ 0 [7, 7] 2).cid = ⟨[1]⟩ ∧
    (BlockReader.mk ⟨[1]⟩ 0 [7, 7] 2).size = (2 : Int).toNat ∧
    (BlockReader.mk ⟨[1]⟩ 0 [7, 7] 2).readToEnd
      = (List.range (2 : Int).toNat).map (fun _ => (7 : UInt8)) ∧
    (BlockReader.mk ⟨[1]⟩ 0 [7, 7] 2).readToEnd.length = (2 : Int).toNat :=
  C10_get_block_shape ⟨1⟩ ⟨[1]⟩ 0 (fun _ => (7 : UInt8)) 2
    (BlockReader.mk ⟨[1]⟩ 0 [7, 7] 2) (by decide) (by decide) (by decide)

/-- C7: whenever `hash_blake2b` returns successfully, exactly the 32 bytes
starting at `obuf_off` of guest memory are overwritten with the digest
(memory keeps its length and every byte outside that window is unchanged),
and two successful invocations whose input byte slices coincide write the
same digest bytes (determinism of the capability's hash function, which is
a fixed function `kHash`). -/
theorem C7_hash_blake2b_writes_digest
    (kHash : List UInt8 → Except Unit (List UInt8))
    (mem mem2 out out2 : List UInt8)
    (d_off d_len o_off d_off2 d_len2 o_off2 : Nat)
    (h : hash_blake2b kHash mem d_off d_len o_off = .ok out)
    (h2 : hash_blake2b kHash mem2 d_off2 d_len2 o_off2 = .ok out2)
    (hdata : try_slice mem d_len d_off = try_slice mem2 d_len2 d_off2) :
    out.length = mem.length ∧
    out.take o_off = mem.take o_off ∧
    out.drop (o_off + 32) = mem.drop (o_off + 32) ∧
    ((out.drop o_off).take 32).length = 32 ∧
    (out.drop o_off).take 32 = (out2.drop o_off2).take 32 := by
  unfold hash_blake2b at h h2
  cases hts : try_slice mem d_len d_off with
  | error t => rw [hts] at h; cases h
  | ok data =>
    rw [hts] at h
    rw [hts] at hdata
    rw [← hdata] at h2
    dsimp only at h h2
    cases hk : kHash data with
    | error e => rw [hk] at h; cases h
    | ok hash =>
      rw [hk] at h h2
      dsimp only at h h2
      split_ifs at h with hlen hbound
      split_ifs at h2 with hbound2
      cases h
      cases h2
      have htlen : (hash.take 32).length = 32 := by
        simp [hlen]
      constructor
      · rw [writeBytes_length mem (hash.take 32) o_off (by omega)]
      constructor
      · rw [writeBytes_take mem (hash.take 32) o_off (by omega)]
      constructor
      · have := writeBytes_drop mem (hash.take 32) o_off (by omega)
        rw [htlen] at this
        exact this
      constructor
      · have := writeBytes_middle mem (hash.take 32) o_off (by omega)
        rw [htlen] at this
        rw [this, htlen]
      · have hm1 := writeBytes_middle mem (hash.take 32) o_off (by omega)
        have hm2 := writeBytes_middle mem2 (hash.take 32) o_off2 (by omega)
        rw [htlen] at hm1 hm2
        rw [hm1, hm2]

/-- Witness for C7 at a concrete input: hashing the empty slice with a
capability that returns 32 zero bytes. -/
theorem C7_witness :
    (List.replicate 32 (0 : UInt8)).length
      = (List.replicate 32 (0 : UInt8)).length ∧
    (List.replicate 32 (0 : UInt8)).take 0
      = (List.replicate 32 (0 : UInt8)).take 0 ∧
    (List.replicate 32 (0 : UInt8)).drop (0 + 32)
      = (List.replicate 32 (0 : UInt8)).drop (0 + 32) ∧
    (((List.replicate 32 (0 : UInt8)).drop 0).take 32).length = 32 ∧
    ((List.replicate 32 (0 : UInt8)).drop 0).take 32
      = ((List.replicate 32 (0 : UInt8)).drop 0).take 32 :=
  C7_hash_blake2b_writes_digest (fun _ => Except.ok (List.replicate 32 0))
    (List.replicate 32 0) (List.replicate 32 0)
    (List.replicate 32 0) (List.replicate 32 0)
    0 0 0 0 0 0 (by decide) (by decide) rfl

/-- C1: FALSIFIED — the source passes `(plaintext_len, plaintext_off)` and
`(data_len, data_off)` to `try_slice(offset, length)`, so the bytes handed
to the capability are the range `[len, len+off)`, not `[off, off+len)`.
With memory `[10, 20]`, `plaintext_off = 0`, `plaintext_len = 1`, the
claim predicts that the kernel receives `[10]` (so a kernel testing for
`[10]` would answer `true`), but the kernel receives the empty slice and
answers `false`; likewise `hash_blake2b` with `data_off = 0`,
`data_len = 1` hashes the empty slice (digest of all 2s below) instead of
`[10]` (digest of all 1s). -/
theorem C1_swapped_slice_args :
    verify_signature (fun _ => some ()) (fun _ => some ())
      (fun (_ : Unit) (_ : Unit) pt => Except.ok (decide (pt = [10])))
      [10, 20] 0 0 0 0 0 1 = .ok false ∧
    hash_blake2b
      (fun d => Except.ok
        (List.replicate 32 (if d = [10] then (1 : UInt8) else 2)))
      (10 :: 20 :: List.replicate 32 0) 0 1 2
      = .ok (10 :: 20 :: List.replicate 32 2) := by
  constructor
  · rfl
  · decide

end RefFvm
